import Mathlib

/-!
Verification of the passkey smart-account core: key codecs, DER signature
parsing with low-S normalization, attestation parsing, UserOperation hashing,
signing, submission formatting and receipt polling.

Byte sequences are modelled as `List Nat` (each entry one byte). JavaScript
typed-array reads out of range yield `undefined`; every such read in the
sources flows into a masking, comparison or arithmetic position where
`undefined` behaves exactly like `0` (masks send it to `0`, strict equality
with a byte constant is false either way), so reads are modelled with
default `0`. TypeScript `bigint` values are modelled as `Int` where
subtraction can go negative and as `Nat` where they are always
non-negative. Thrown errors are modelled with `Except`.
-/

namespace Sendme

/-- Read of `a[i]` on a typed array, with out-of-range reads giving the
value `0` (see the module comment on why this matches `undefined`). -/
def jsIdx (a : List Nat) (i : Nat) : Nat := a.getD i 0

/-- Big-endian encoding of `n` into exactly `w` bytes (the value is taken
mod `256 ^ w`; the sources only pack values that fit). Models viem
`pad(toHex(v), 16)` and the static parts of `encodeAbiParameters`. -/
def beBytes : Nat → Nat → List Nat
  | 0, _ => []
  | w + 1, n => beBytes w (n / 256) ++ [n % 256]

/-- Big-endian value of a byte list, models `BigInt(bytesToHex bs)`. -/
def beNat (bs : List Nat) : Nat := bs.foldl (fun a b => 256 * a + b) 0

/-- Models `Uint8Array.set`: overwrite `base` starting at `off` with `vals`
(callers guard the in-range condition, as the JS method throws otherwise). -/
def setBytes (base : List Nat) (off : Nat) (vals : List Nat) : List Nat :=
  base.take off ++ vals ++ base.drop (off + vals.length)

/-- Error kinds thrown by the binary codecs: `formatError` models the
`throw new Error(...)` calls on malformed input, `rangeError` models the
RangeError a typed-array write raises on an out-of-range offset. -/
inductive SigError where
  | formatError
  | rangeError
deriving DecidableEq

/- ## KeyCodec (webauthn/utils.ts: rawKeyToDer, derKeyToXY) -/

/-- The fixed 26-byte SPKI/DER algorithm header for P-256 public keys; the
source constant `DER_PREFIX` is this header followed by the uncompressed
point tag `0x04`. -/
def derHeaderBytes : List Nat :=
  [0x30, 0x59, 0x30, 0x13, 0x06, 0x07, 0x2a, 0x86, 0x48, 0xce, 0x3d, 0x02,
   0x01, 0x06, 0x08, 0x2a, 0x86, 0x48, 0xce, 0x3d, 0x03, 0x01, 0x07, 0x03,
   0x42, 0x00]

/-- Function `rawKeyToDer`: 64-byte raw coordinate pair to the 91-byte DER key
(header, point tag 0x04, then the 64 coordinate bytes). Throws on any other
input length. -/
def rawKeyToDer (rawKey : List Nat) : Except SigError (List Nat) :=
  if rawKey.length ≠ 64 then .error .formatError
  else .ok (derHeaderBytes ++ 0x04 :: rawKey)

/-- Function `derKeyToXY`: check the fixed 27-byte DER prelude, require exactly 64
bytes after it, split into the two 32-byte coordinates. -/
def derKeyToXY (derKey : List Nat) : Except SigError (List Nat × List Nat) :=
  if derKey.take 27 ≠ derHeaderBytes ++ [0x04] then .error .formatError
  else
    let pubKey := derKey.drop 27
    if pubKey.length ≠ 64 then .error .formatError
    else .ok (pubKey.take 32, pubKey.drop 32)

/- ## SignatureCodec (webauthn/passkey.ts: parseDerSignature) -/

/-- Order of the P-256 curve, the constant `n` in `parseDerSignature`. -/
def p256N : Int := 0xFFFFFFFF00000000FFFFFFFFFFFFFFFFBCE6FAADA7179E84F3B9CAC2FC632551

/-- Half the curve order, `n / 2n` with truncating bigint division. -/
def p256HalfN : Int := p256N / 2

/-- Low-S normalization, the final step of `parseDerSignature`:
if `s > n / 2` replace `s` by `n - s`, keep `r` unchanged. -/
def normalizeLowS (rs : Int × Int) : Int × Int :=
  (rs.1, if rs.2 > p256HalfN then p256N - rs.2 else rs.2)

/-- Strip a single leading zero byte (DER sign-padding), as the source does
with `if (bytes[0] === 0x00) bytes = bytes.slice(1)`. -/
def stripLeadingZero (bs : List Nat) : List Nat :=
  match bs with
  | 0 :: rest => rest
  | _ => bs

/-- Last phase of `parseDerSignature`: strip sign padding, left-pad each
integer to 32 bytes (the `Uint8Array.set` call raises a RangeError when an
integer is longer than 32 bytes), read big-endian values, normalize s. -/
def derFinish (rBytes sBytes : List Nat) : Except SigError (Int × Int) :=
  let rB := stripLeadingZero rBytes
  let sB := stripLeadingZero sBytes
  if rB.length ≤ 32 ∧ sB.length ≤ 32 then
    let r : Int := (beNat (List.replicate (32 - rB.length) 0 ++ rB) : Nat)
    let s : Int := (beNat (List.replicate (32 - sB.length) 0 ++ sB) : Nat)
    .ok (normalizeLowS (r, s))
  else .error .rangeError

/-- Function `parseDerSignature`: check the outer sequence tag 0x30, skip the total
length byte, read the two integer fields (tag 0x02, length byte, then that
many bytes, with `slice` clamping to the available input), then finish with
padding and low-S normalization. -/
def parseDerSignature (der : List Nat) : Except SigError (Int × Int) :=
  if jsIdx der 0 ≠ 0x30 then .error .formatError
  else if jsIdx der 2 ≠ 0x02 then .error .formatError
  else
    let rLen := jsIdx der 3
    let rBytes := (der.drop 4).take rLen
    if jsIdx der (4 + rLen) ≠ 0x02 then .error .formatError
    else
      let sLen := jsIdx der (4 + rLen + 1)
      let sBytes := (der.drop (4 + rLen + 2)).take sLen
      derFinish rBytes sBytes

/- ## AttestationParser (webauthn/utils.ts: parseCoseKey, parseAttestationObject) -/

/-- ASCII bytes of the map key name authData. -/
def authDataLabel : List Nat := [0x61, 0x75, 0x74, 0x68, 0x44, 0x61, 0x74, 0x61]

/-- Skip one value while scanning the top level of the attestation map,
mirroring the branch chain of the source (the `0x78` strict-equality branch
is kept in source order even though the preceding mask branch already
covers it; an unknown tag skips nothing, as in the source). Returns the new
offset. -/
def skipValue (bytes : List Nat) (offset : Nat) : Nat :=
  let vb := jsIdx bytes offset
  let off := offset + 1
  if vb &&& 0xe0 = 0x60 then off + (vb &&& 0x1f)
  else if vb = 0x78 then off + 1 + jsIdx bytes off
  else if vb &&& 0xe0 = 0xa0 then off
  else if vb = 0x58 then off + 1 + jsIdx bytes off
  else if vb = 0x59 then off + 2 + (((jsIdx bytes off) <<< 8) ||| jsIdx bytes (off + 1))
  else off

/-- The top-level scan of `parseAttestationObject`: up to three entries are
examined; for each, a text-string key is read (length from the low five
bits of the tag), compared with authData, and on a match the byte-string
length encoding decides the start offset of the authData payload. A
non-matching entry has its value skipped. Returns the authData offset, or
`none` when the loop ends without finding it (`authDataOffset === -1`). -/
def findAuthData (bytes : List Nat) : Nat → Nat → Option Nat
  | _, 0 => none
  | offset, i + 1 =>
    let keyLen := jsIdx bytes offset &&& 0x1f
    let off1 := offset + 1
    let key := (bytes.drop off1).take keyLen
    let off2 := off1 + keyLen
    if key = authDataLabel then
      if jsIdx bytes off2 = 0x58 then some (off2 + 2)
      else if jsIdx bytes off2 = 0x59 then some (off2 + 3)
      else findAuthData bytes off2 i
    else findAuthData bytes (skipValue bytes off2) i

/-- The entry loop of `parseCoseKey`: `count` remaining entries, current
offset, coordinates found so far. Keys are small CBOR integers (negative
`-1 - low5` or positive `low5`; any other key tag throws). Values: the
`(tag and 0xe0) = 0x40` branch reads a byte string whose length is the low
five bits of the tag (this branch also captures tag 0x58, so the later
strict-equality 0x58 branch of the source is unreachable; both are kept in
source order); small integers are skipped; any other tag throws. -/
def coseEntries (ck : List Nat) :
    Nat → Nat → Option (List Nat) → Option (List Nat) →
    Except SigError (Option (List Nat) × Option (List Nat))
  | 0, _, x, y => .ok (x, y)
  | i + 1, offset, x, y =>
    let keyByte := jsIdx ck offset
    let off1 := offset + 1
    if keyByte &&& 0xe0 = 0x20 ∨ keyByte &&& 0xe0 = 0x00 then
      let key : Int :=
        if keyByte &&& 0xe0 = 0x20 then -1 - (keyByte &&& 0x1f : Nat)
        else (keyByte &&& 0x1f : Nat)
      let vb := jsIdx ck off1
      let off2 := off1 + 1
      if vb &&& 0xe0 = 0x40 then
        let len := vb &&& 0x1f
        let value := (ck.drop off2).take len
        coseEntries ck i (off2 + len)
          (if key = -2 then some value else x)
          (if key = -3 then some value else y)
      else if vb &&& 0xe0 = 0x00 then coseEntries ck i off2 x y
      else if vb &&& 0xe0 = 0x20 then coseEntries ck i off2 x y
      else if vb = 0x58 then
        let len := jsIdx ck off2
        let value := (ck.drop (off2 + 1)).take len
        coseEntries ck i (off2 + 1 + len)
          (if key = -2 then some value else x)
          (if key = -3 then some value else y)
      else .error .formatError
    else .error .formatError

/-- Function `parseCoseKey`: check the map tag, iterate the declared number of
entries, and require that both coordinates were found. -/
def parseCoseKey (ck : List Nat) : Except SigError (List Nat × List Nat) :=
  let mapHeader := jsIdx ck 0
  if mapHeader &&& 0xe0 ≠ 0xa0 then .error .formatError
  else
    match coseEntries ck (mapHeader &&& 0x1f) 1 none none with
    | .error e => .error e
    | .ok (some x, some y) => .ok (x, y)
    | .ok _ => .error .formatError

/-- Function `parseAttestationObject`: skip the outer map tag, locate authData, skip
the 37-byte prefix, the 16-byte aaguid and the 2-byte big-endian credential
id length plus that many bytes, parse the COSE key map that follows, write
the coordinates into a zeroed 64-byte raw key (the typed-array writes raise
a RangeError when a coordinate overruns the buffer), and convert through
`rawKeyToDer` and `derKeyToXY`. Returns the DER key and the coordinates. -/
def parseAttestationObject (bytes : List Nat) :
    Except SigError (List Nat × List Nat × List Nat) :=
  match findAuthData bytes 1 3 with
  | none => .error .formatError
  | some authDataOffset =>
    let acd := authDataOffset + 37
    let credIdLen := ((jsIdx bytes (acd + 16)) <<< 8) ||| jsIdx bytes (acd + 17)
    let coseKey := bytes.drop (acd + 18 + credIdLen)
    match parseCoseKey coseKey with
    | .error e => .error e
    | .ok (x, y) =>
      if x.length ≤ 64 ∧ y.length ≤ 32 then
        let rawKey := setBytes (setBytes (List.replicate 64 0) 0 x) 32 y
        match rawKeyToDer rawKey with
        | .error e => .error e
        | .ok der =>
          match derKeyToXY der with
          | .error e => .error e
          | .ok xy => .ok (der, xy.1, xy.2)
      else .error .rangeError

/- ## OperationBuilder (userOp.ts) -/

/-- Fixed entry point contract address (ERC-4337 v0.7 singleton). -/
def ENTRY_POINT_ADDRESS : Nat := 0x0000000071727De22E5E9d8BAf0edAc6f37da032

/-- Fixed factory contract address. -/
def FACTORY_ADDRESS : Nat := 0x6391426be3228106f8576550D25b54bcB1306f30

/-- Fixed chain id of the target network (Base Sepolia). -/
def CHAIN_ID : Nat := 84532

/-- The UserOperation structure of userOp.ts. Addresses are numbers below
`2 ^ 160`, bigints are `Nat` (they are never negative in the sources),
byte-typed fields are byte lists, nullable fields are `Option`. -/
structure UserOperation where
  sender : Nat
  nonce : Nat
  factory : Option Nat
  factoryData : Option (List Nat)
  callData : List Nat
  callGasLimit : Nat
  verificationGasLimit : Nat
  preVerificationGas : Nat
  maxFeePerGas : Nat
  maxPriorityFeePerGas : Nat
  paymaster : Option Nat
  paymasterVerificationGasLimit : Option Nat
  paymasterPostOpGasLimit : Option Nat
  paymasterData : Option (List Nat)
  signature : List Nat

/-- Function `packUserOpForHash`: concatenate factory and factory data into the init
code (empty when no factory), pack the two gas limits and the two fee
fields into 16 bytes each, concatenate the paymaster fields (empty when no
paymaster), then ABI-encode the eight-tuple
(address, uint256, bytes32, bytes32, bytes32, uint256, bytes32, bytes32)
with the three variable-length fields hashed; every component is a static
32-byte word, so the encoding is plain concatenation. The hash function is
a parameter because keccak256 comes from the viem library. -/
def packUserOpForHash (keccak : List Nat → List Nat) (op : UserOperation) :
    List Nat :=
  let initCode := match op.factory with
    | some f => beBytes 20 f ++ op.factoryData.getD []
    | none => []
  let accountGasLimits :=
    beBytes 16 op.verificationGasLimit ++ beBytes 16 op.callGasLimit
  let gasFees :=
    beBytes 16 op.maxPriorityFeePerGas ++ beBytes 16 op.maxFeePerGas
  let paymasterAndData := match op.paymaster with
    | some p =>
      beBytes 20 p ++ beBytes 16 (op.paymasterVerificationGasLimit.getD 0) ++
        beBytes 16 (op.paymasterPostOpGasLimit.getD 0) ++ op.paymasterData.getD []
    | none => []
  beBytes 32 op.sender ++ beBytes 32 op.nonce ++ keccak initCode ++
    keccak op.callData ++ accountGasLimits ++ beBytes 32 op.preVerificationGas ++
    gasFees ++ keccak paymasterAndData

/-- Function `getUserOpHash`: hash the packed operation, then hash the ABI encoding
of (bytes32, address, uint256) applied to that inner hash, the entry point
address and the chain id. -/
def getUserOpHash (keccak : List Nat → List Nat) (op : UserOperation) :
    List Nat :=
  keccak (keccak (packUserOpForHash keccak op) ++
    beBytes 32 ENTRY_POINT_ADDRESS ++ beBytes 32 CHAIN_ID)

/-- The operation hash exactly as the specification sentence words it:
hash each variable-length field first, pack verification and call gas
limits into 16 bytes each and concatenate, pack the priority fee and max
fee into 16 bytes each and concatenate, ABI-encode the eight listed values
and hash, then hash once more together with the entry point address and
the chain id. Written independently from `getUserOpHash` to compare the
source against the specification. -/
def userOpHashSpec (keccak : List Nat → List Nat) (op : UserOperation) :
    List Nat :=
  let hashOfDeploymentBytes := keccak (match op.factory with
    | some f => beBytes 20 f ++ op.factoryData.getD []
    | none => [])
  let hashOfCallData := keccak op.callData
  let packedGasLimits :=
    beBytes 16 op.verificationGasLimit ++ beBytes 16 op.callGasLimit
  let packedFees :=
    beBytes 16 op.maxPriorityFeePerGas ++ beBytes 16 op.maxFeePerGas
  let hashOfSponsorBytes := keccak (match op.paymaster with
    | some p =>
      beBytes 20 p ++ beBytes 16 (op.paymasterVerificationGasLimit.getD 0) ++
        beBytes 16 (op.paymasterPostOpGasLimit.getD 0) ++ op.paymasterData.getD []
    | none => [])
  let innerHash := keccak (beBytes 32 op.sender ++ beBytes 32 op.nonce ++
    hashOfDeploymentBytes ++ hashOfCallData ++ packedGasLimits ++
    beBytes 32 op.preVerificationGas ++ packedFees ++ hashOfSponsorBytes)
  keccak (innerHash ++ beBytes 32 ENTRY_POINT_ADDRESS ++ beBytes 32 CHAIN_ID)

/-- The packed UserOperation produced for bundler submission; the fields
that `toHex` turns into minimal hex strings are kept as numbers here, the
byte-level fields are byte lists. Only the four byte-level packed fields
are compared with the hashing path. -/
structure PackedUserOperation where
  sender : Nat
  nonce : Nat
  initCode : List Nat
  callData : List Nat
  accountGasLimits : List Nat
  preVerificationGas : Nat
  gasFees : List Nat
  paymasterAndData : List Nat
  signature : List Nat

/-- Function `packUserOp`: the independently written packing routine used for
bundler submission, mirrored clause by clause from the source. -/
def packUserOp (op : UserOperation) : PackedUserOperation :=
  let initCode := match op.factory with
    | some f => beBytes 20 f ++ op.factoryData.getD []
    | none => []
  let accountGasLimits :=
    beBytes 16 op.verificationGasLimit ++ beBytes 16 op.callGasLimit
  let gasFees :=
    beBytes 16 op.maxPriorityFeePerGas ++ beBytes 16 op.maxFeePerGas
  let paymasterAndData := match op.paymaster with
    | some p =>
      beBytes 20 p ++ beBytes 16 (op.paymasterVerificationGasLimit.getD 0) ++
        beBytes 16 (op.paymasterPostOpGasLimit.getD 0) ++ op.paymasterData.getD []
    | none => []
  { sender := op.sender
    nonce := op.nonce
    initCode := initCode
    callData := op.callData
    accountGasLimits := accountGasLimits
    preVerificationGas := op.preVerificationGas
    gasFees := gasFees
    paymasterAndData := paymasterAndData
    signature := op.signature }

/- ## OperationSigner (userOp.ts: signUserOp) -/

/-- Round a length up to the next multiple of 32, as ABI encoding pads
dynamic data. -/
def ceil32 (n : Nat) : Nat := ((n + 31) / 32) * 32

/-- ABI tail encoding of a dynamic bytes or string value: a 32-byte length
word followed by the data right-padded with zeros to a 32-byte boundary. -/
def abiDynamic (bs : List Nat) : List Nat :=
  beBytes 32 bs.length ++ bs ++ List.replicate (ceil32 bs.length - bs.length) 0

/-- ABI encoding of the signature struct
(uint8, bytes, string, uint256, uint256) as viem encodeAbiParameters
produces it: a five-word head holding the static values and the tail
offsets (measured from the start of the encoding), followed by the two
dynamic tails in order. -/
def encodeSigStruct (keySlot : Nat) (authData clientJSON : List Nat)
    (r s : Int) : List Nat :=
  beBytes 32 keySlot ++ beBytes 32 160 ++
    beBytes 32 (192 + ceil32 authData.length) ++
    beBytes 32 r.toNat ++ beBytes 32 s.toNat ++
    abiDynamic authData ++ abiDynamic clientJSON

/-- Function `signUserOp` with `validUntil = 0`: compute the operation hash, build
the 38-byte challenge by writing the 6 big-endian validUntil bytes and the
hash into a zeroed buffer (the typed-array write raises a RangeError if
the hash exceeds 32 bytes), hand the challenge to the passkey capability
(the `authenticator` parameter models the external WebAuthn call, returning
authenticator data, the client data JSON as raw bytes, and the DER
signature), parse the DER signature, ABI-encode the signature struct and
prepend the validUntil bytes. -/
def signUserOp (keccak : List Nat → List Nat)
    (authenticator : List Nat → List Nat × List Nat × List Nat)
    (op : UserOperation) (keySlot : Nat) : Except SigError (List Nat) :=
  let hash := getUserOpHash keccak op
  let validUntilBytes := beBytes 6 0
  if hash.length ≤ 32 then
    let challenge := setBytes (setBytes (List.replicate 38 0) 0 validUntilBytes) 6 hash
    let res := authenticator challenge
    (parseDerSignature res.2.2).map fun rs =>
      validUntilBytes ++ encodeSigStruct keySlot res.1 res.2.1 rs.1 rs.2
  else .error .rangeError

/- ## RelayClient (server/router.ts, bundler.ts) -/

/-- ASCII code of the hex digit for a value below 16 (digits then lower
case letters), as JavaScript `toString(16)` produces. -/
def hexDigit (d : Nat) : Nat := if d < 10 then 48 + d else 87 + d

/-- Minimal big-endian hex digits of a number, ASCII-coded, at least one
digit ( `0` gives the single digit `0` ). -/
def natHexDigits (n : Nat) : List Nat :=
  if _h : n < 16 then [hexDigit n]
  else natHexDigits (n / 16) ++ [hexDigit (n % 16)]
decreasing_by exact Nat.div_lt_self (by omega) (by omega)

/-- viem `toHex` on a bigint: the two ASCII characters `0x` followed by the
minimal hex digits. Strings are modelled as ASCII byte lists. -/
def toHexString (n : Nat) : List Nat := 48 :: 120 :: natHexDigits n

/-- Decode a list of ASCII hex digits back to the number, to state that the
serialization really represents its input. -/
def hexDecode (cs : List Nat) : Nat :=
  cs.foldl (fun a c => 16 * a + (if c < 58 then c - 48 else c - 87)) 0

/-- The UserOperationV07 request object sent to the bundler over JSON-RPC.
Numeric fields are hex strings; `none` in an `Option` field models the key
being absent from the request object (the source only assigns those keys
inside the corresponding `if`). -/
structure UserOperationV07 where
  sender : Nat
  nonce : List Nat
  factory : Option Nat
  factoryData : Option (List Nat)
  callData : List Nat
  callGasLimit : List Nat
  verificationGasLimit : List Nat
  preVerificationGas : List Nat
  maxFeePerGas : List Nat
  maxPriorityFeePerGas : List Nat
  paymaster : Option Nat
  paymasterVerificationGasLimit : Option (List Nat)
  paymasterPostOpGasLimit : Option (List Nat)
  paymasterData : Option (List Nat)
  signature : List Nat

/-- The conversion in `submitUserOp`: serialize every numeric field with
`toHex`, copy the byte fields, and add the factory pair only when a factory
is present and the four paymaster keys only when a paymaster is present. -/
def toBundlerUserOp (op : UserOperation) : UserOperationV07 :=
  { sender := op.sender
    nonce := toHexString op.nonce
    factory := op.factory
    factoryData := match op.factory with
      | some _ => some (op.factoryData.getD [])
      | none => none
    callData := op.callData
    callGasLimit := toHexString op.callGasLimit
    verificationGasLimit := toHexString op.verificationGasLimit
    preVerificationGas := toHexString op.preVerificationGas
    maxFeePerGas := toHexString op.maxFeePerGas
    maxPriorityFeePerGas := toHexString op.maxPriorityFeePerGas
    paymaster := op.paymaster
    paymasterVerificationGasLimit := match op.paymaster with
      | some _ => some (toHexString (op.paymasterVerificationGasLimit.getD 0))
      | none => none
    paymasterPostOpGasLimit := match op.paymaster with
      | some _ => some (toHexString (op.paymasterPostOpGasLimit.getD 0))
      | none => none
    paymasterData := match op.paymaster with
      | some _ => some (op.paymasterData.getD [])
      | none => none
    signature := op.signature }

/-- Function `submitUserOp` composed with `sendUserOperation`: build the bundler
request object, post it with the entry point address as the second JSON-RPC
parameter (the `send` parameter models the network call) and return the
relay-assigned hash unchanged. -/
def submitUserOp (send : UserOperationV07 → Nat → Nat) (op : UserOperation) :
    Nat :=
  send (toBundlerUserOp op) ENTRY_POINT_ADDRESS

/-- The three gas values returned by `eth_estimateUserOperationGas`. -/
structure GasEstimate where
  preVerificationGas : Nat
  verificationGasLimit : Nat
  callGasLimit : Nat

/-- The operation-building part of `prepareUserOp`: fill the structural
fields, set the initial gas limits (call 200000, verification 150000 when
the sender is deployed and 600000 when deployment is bundled,
preVerification 100000), then refine the three gas fields from the external
estimation call. The call is wrapped in try/catch in the source: `none`
models a failed estimation, in which case the defaults are kept and no
error escapes (the function is total); `some e` models success, replacing
exactly the three gas fields. `initCodeBytes` is the factory address
followed by the factory calldata (built by the external ABI encoder); the
factory data field drops its 20-byte address. -/
def prepareUserOp (isDeployed : Bool) (sender nonce : Nat)
    (initCodeBytes callData : List Nat) (fastMaxFee fastPriorityFee : Nat)
    (estimate : Option GasEstimate) : UserOperation :=
  let base : UserOperation :=
    { sender := sender
      nonce := nonce
      factory := if isDeployed then none else some FACTORY_ADDRESS
      factoryData := if isDeployed then none else some (initCodeBytes.drop 20)
      callData := callData
      callGasLimit := 200000
      verificationGasLimit := if isDeployed then 150000 else 600000
      preVerificationGas := 100000
      maxFeePerGas := fastMaxFee
      maxPriorityFeePerGas := fastPriorityFee
      paymaster := none
      paymasterVerificationGasLimit := none
      paymasterPostOpGasLimit := none
      paymasterData := none
      signature := [] }
  match estimate with
  | none => base
  | some e =>
    { base with
      callGasLimit := e.callGasLimit
      verificationGasLimit := e.verificationGasLimit
      preVerificationGas := e.preVerificationGas }

/-- The polling loop of `waitForUserOperation`, instrumented with the list
of elapsed times at which `getReceipt` was called. Polls are modelled as
instantaneous, so elapsed time advances only by the fixed 2000 ms sleep
after an absent receipt. The `fuel` argument only forces termination; each
iteration advances elapsed time by 2000, so `timeout + 1` iterations are
never reached and the exhaustion branch is dead for the fuel the wrapper
passes. `none` as the first component models the thrown timeout error. -/
def waitIter (getReceipt : Nat → Option Nat) (timeout : Nat) :
    Nat → Nat → Option Nat × List Nat
  | _, 0 => (none, [])
  | elapsed, fuel + 1 =>
    if elapsed < timeout then
      match getReceipt elapsed with
      | some r => (some r, [elapsed])
      | none =>
        let rest := waitIter getReceipt timeout (elapsed + 2000) fuel
        (rest.1, elapsed :: rest.2)
    else (none, [])

/-- The poll-time list the loop produces when every poll is absent,
mirroring the structure of `waitIter`. -/
def pollTimes (timeout : Nat) : Nat → Nat → List Nat
  | _, 0 => []
  | elapsed, fuel + 1 =>
    if elapsed < timeout then elapsed :: pollTimes timeout (elapsed + 2000) fuel
    else []

/-- Function `waitForUserOperation` with an explicit timeout, starting at elapsed
time zero. -/
def waitTrace (getReceipt : Nat → Option Nat) (timeout : Nat) :
    Option Nat × List Nat :=
  waitIter getReceipt timeout 0 (timeout + 1)

/-- Default timeout of `waitForUserOperation`. -/
def defaultTimeoutMs : Nat := 60000

/-- Function `waitForUserOperation` with its default 60000 ms timeout. -/
def waitForUserOperation (getReceipt : Nat → Option Nat) :
    Option Nat × List Nat :=
  waitTrace getReceipt defaultTimeoutMs

/- ## Concrete inputs used by witnesses and counterexamples -/

/-- A 32-byte x coordinate whose bytes 23, 24, 25 are chosen so that the
attestation parser, after misreading the coordinate length, still finds a
well-formed second entry and returns successfully. -/
def c6X : List Nat :=
  List.replicate 23 0xAA ++ [0x22, 0x41, 0xBB] ++ List.replicate 6 0xAA

/-- A COSE key map with two entries: key -2 with a byte string tagged
0x58 and 1-byte length 0x20 holding `c6X`, and key -3 with the same
encoding holding 32 bytes of 0xCC. This is the standard CBOR encoding for
32-byte coordinates (lengths above 23 cannot live in the tag byte). -/
def c6CoseKey : List Nat :=
  [0xA2, 0x21, 0x58, 0x20] ++ c6X ++ [0x22, 0x58, 0x20] ++ List.replicate 32 0xCC

/-- A full attestation blob: outer map tag, the text key authData, a byte
string with 1-byte length, a 37-byte authData prefix, a 16-byte aaguid, a
zero credential id length, then `c6CoseKey`. -/
def c6Attestation : List Nat :=
  [0xA1, 0x68] ++ authDataLabel ++ [0x58, 0x98] ++ List.replicate 55 0 ++ c6CoseKey

/-- A concrete operation used to instantiate the signing theorem. -/
def sampleOp : UserOperation :=
  { sender := 0x1234
    nonce := 7
    factory := none
    factoryData := none
    callData := [0xDE, 0xAD]
    callGasLimit := 200000
    verificationGasLimit := 150000
    preVerificationGas := 100000
    maxFeePerGas := 1000
    maxPriorityFeePerGas := 100
    paymaster := none
    paymasterVerificationGasLimit := none
    paymasterPostOpGasLimit := none
    paymasterData := none
    signature := [] }

/-- A concrete operation without factory and paymaster, used to
instantiate the submission-serialization theorem. -/
def sampleOp9 : UserOperation :=
  { sender := 0x99
    nonce := 5
    factory := none
    factoryData := none
    callData := [0x01]
    callGasLimit := 321
    verificationGasLimit := 654
    preVerificationGas := 987
    maxFeePerGas := 17
    maxPriorityFeePerGas := 3
    paymaster := none
    paymasterVerificationGasLimit := none
    paymasterPostOpGasLimit := none
    paymasterData := none
    signature := [0xFF] }

/- ## Claim theorems -/

/-- C1: for every Operation, `getUserOpHash` equals the two-level hash the
specification describes (inner keccak of the ABI encoding of the eight
listed values with the variable-length fields hashed first and the gas and
fee pairs packed into 16 bytes each, then an outer keccak binding the fixed
entry point address and chain id); consequently two Operations that differ
only in the signature field have the same hash. -/
theorem c1_getUserOpHash_two_level (keccak : List Nat → List Nat)
    (op : UserOperation) :
    getUserOpHash keccak op = userOpHashSpec keccak op ∧
    ∀ sig : List Nat,
      getUserOpHash keccak { op with signature := sig } =
        getUserOpHash keccak op :=
  ⟨rfl, fun _ => rfl⟩

/-- C10: the initCode, accountGasLimits, gasFees and paymasterAndData
values computed inside `packUserOpForHash` coincide with the corresponding
fields of `packUserOp` on the same operation: the hashing-side packing is
exactly the ABI encoding of the eight words built from the fields of
`packUserOp`. -/
theorem c10_pack_agreement (keccak : List Nat → List Nat)
    (op : UserOperation) :
    packUserOpForHash keccak op =
      beBytes 32 (packUserOp op).sender ++ beBytes 32 (packUserOp op).nonce ++
      keccak (packUserOp op).initCode ++ keccak (packUserOp op).callData ++
      (packUserOp op).accountGasLimits ++
      beBytes 32 (packUserOp op).preVerificationGas ++
      (packUserOp op).gasFees ++ keccak (packUserOp op).paymasterAndData :=
  rfl

/-- C8: before estimation the built operation carries callGasLimit 200000,
verificationGasLimit 150000 when the sender is deployed and 600000 when
deployment is bundled, and preVerificationGas 100000; a failed estimation
(`none`) keeps exactly the pre-estimation operation, raising nothing
(`prepareUserOp` is total); a successful estimation replaces exactly the
three gas fields. -/
theorem c8_prepareUserOp_gas_defaults (isDeployed : Bool) (sender nonce : Nat)
    (initCodeBytes callData : List Nat) (fastMaxFee fastPriorityFee : Nat) :
    ((prepareUserOp isDeployed sender nonce initCodeBytes callData fastMaxFee
        fastPriorityFee none).callGasLimit = 200000 ∧
     (prepareUserOp isDeployed sender nonce initCodeBytes callData fastMaxFee
        fastPriorityFee none).verificationGasLimit =
       (if isDeployed then 150000 else 600000) ∧
     (prepareUserOp isDeployed sender nonce initCodeBytes callData fastMaxFee
        fastPriorityFee none).preVerificationGas = 100000) ∧
    ∀ e : GasEstimate,
      prepareUserOp isDeployed sender nonce initCodeBytes callData fastMaxFee
          fastPriorityFee (some e) =
        { prepareUserOp isDeployed sender nonce initCodeBytes callData
            fastMaxFee fastPriorityFee none with
          callGasLimit := e.callGasLimit
          verificationGasLimit := e.verificationGasLimit
          preVerificationGas := e.preVerificationGas } :=
  ⟨⟨rfl, rfl, rfl⟩, fun _ => rfl⟩

/-- Helper: the DER prelude of a raw key splits off again: the first 27
bytes of `derHeaderBytes ++ 0x04 :: c` are the prelude and the rest is
`c`. -/
theorem derPrelude_take_drop (c : List Nat) :
    (derHeaderBytes ++ 0x04 :: c).take 27 = derHeaderBytes ++ [0x04] ∧
    (derHeaderBytes ++ 0x04 :: c).drop 27 = c := by
  have hsplit : derHeaderBytes ++ 0x04 :: c = (derHeaderBytes ++ [0x04]) ++ c := by
    simp
  have hlen : (derHeaderBytes ++ [0x04]).length = 27 := by decide
  rw [hsplit]
  exact ⟨List.take_left' hlen, List.drop_left' hlen⟩

/-- C3: for every 64-byte coordinate pair, converting to the key-info blob
and parsing back returns exactly the first and last 32 bytes; the blob is
the 26-byte header, then 0x04, then the coordinates, 91 bytes in all; and
the all-0x01 / all-0x02 concrete pair round-trips byte for byte. -/
theorem c3_key_roundtrip :
    (∀ c : List Nat, c.length = 64 →
      rawKeyToDer c = .ok (derHeaderBytes ++ 0x04 :: c) ∧
      (derHeaderBytes ++ 0x04 :: c).length = 91 ∧
      (rawKeyToDer c).bind derKeyToXY = .ok (c.take 32, c.drop 32)) ∧
    (rawKeyToDer (List.replicate 32 0x01 ++ List.replicate 32 0x02) =
       .ok (derHeaderBytes ++ 0x04 ::
         (List.replicate 32 0x01 ++ List.replicate 32 0x02)) ∧
     (rawKeyToDer (List.replicate 32 0x01 ++ List.replicate 32 0x02)).bind
         derKeyToXY =
       .ok (List.replicate 32 0x01, List.replicate 32 0x02)) := by
  refine ⟨fun c hc => ⟨?_, ?_, ?_⟩, rfl, rfl⟩
  · simp [rawKeyToDer, hc]
  · simp [hc, derHeaderBytes]
  · have hder : rawKeyToDer c = .ok (derHeaderBytes ++ 0x04 :: c) := by
      simp [rawKeyToDer, hc]
    rw [hder]
    show derKeyToXY (derHeaderBytes ++ 0x04 :: c) = _
    obtain ⟨ht, hd⟩ := derPrelude_take_drop c
    unfold derKeyToXY
    rw [ht, hd, if_neg (by simp), if_neg (by simp [hc])]

/-- Witness for C3: the round trip evaluated on 64 bytes of 0x07. -/
theorem c3_key_roundtrip_witness :
    (rawKeyToDer (List.replicate 64 0x07)).bind derKeyToXY =
      .ok ((List.replicate 64 0x07).take 32, (List.replicate 64 0x07).drop 32) :=
  (c3_key_roundtrip.1 (List.replicate 64 0x07) (by decide)).2.2

/-- Helper: the curve order is odd, twice its half plus one. -/
theorem p256N_odd : p256N = 2 * p256HalfN + 1 := by decide

/-- Helper: the second component after low-S normalization never exceeds
half the curve order. -/
theorem normalizeLowS_le (rs : Int × Int) :
    (normalizeLowS rs).2 ≤ p256HalfN := by
  have h := p256N_odd
  unfold normalizeLowS
  dsimp only
  split <;> omega

/-- Helper: low-S normalization is idempotent. -/
theorem normalizeLowS_idem (rs : Int × Int) :
    normalizeLowS (normalizeLowS rs) = normalizeLowS rs := by
  have h2 := normalizeLowS_le rs
  show ((normalizeLowS rs).1,
      if (normalizeLowS rs).2 > p256HalfN then p256N - (normalizeLowS rs).2
      else (normalizeLowS rs).2) = normalizeLowS rs
  rw [if_neg (not_lt.mpr h2)]

/-- Helper: a successful parse only ever returns a normalized pair. -/
theorem parseDerSignature_ok_le (der : List Nat) (r s : Int)
    (h : parseDerSignature der = .ok (r, s)) : s ≤ p256HalfN := by
  unfold parseDerSignature at h
  split at h
  · exact absurd h (by simp)
  · split at h
    · exact absurd h (by simp)
    · dsimp only at h
      split at h
      · exact absurd h (by simp)
      · unfold derFinish at h
        dsimp only at h
        split at h
        · simp only [Except.ok.injEq] at h
          have hs := congrArg Prod.snd h
          simp only at hs
          rw [← hs]
          exact normalizeLowS_le _
        · exact absurd h (by simp)

/-- C4: low-S normalization replaces s by the curve order minus s exactly
when s exceeds half the order and keeps r; the result never exceeds half
the order; the map is idempotent; and every pair a successful
`parseDerSignature` returns satisfies the bound. -/
theorem c4_low_s_normalized (r s : Int) :
    normalizeLowS (r, s) = (r, if s > p256HalfN then p256N - s else s) ∧
    (normalizeLowS (r, s)).2 ≤ p256HalfN ∧
    normalizeLowS (normalizeLowS (r, s)) = normalizeLowS (r, s) ∧
    ∀ der r0 s0, parseDerSignature der = .ok (r0, s0) → s0 ≤ p256HalfN :=
  ⟨rfl, normalizeLowS_le _, normalizeLowS_idem _,
    fun der r0 s0 h => parseDerSignature_ok_le der r0 s0 h⟩

/-- Witness for C4: the specification's concrete scenario, the DER bytes
30 06 02 01 05 02 01 07, parse to (5, 7) and 7 respects the bound. -/
theorem c4_low_s_witness :
    normalizeLowS (normalizeLowS (5, 7)) = normalizeLowS (5, 7) ∧
    (7 : Int) ≤ p256HalfN :=
  ⟨(c4_low_s_normalized 5 7).2.2.1,
   (c4_low_s_normalized 5 7).2.2.2
     [0x30, 0x06, 0x02, 0x01, 0x05, 0x02, 0x01, 0x07] 5 7 rfl⟩

/-- Counterexample for C2: the input 30 06 02 01 05 02 05 07 has a
truncated s field (the s length byte claims five bytes where only one
remains), yet `parseDerSignature` does not fail with a format error: it
silently parses the one remaining byte and returns (5, 7). -/
theorem c2_truncated_s_counterexample :
    parseDerSignature [0x30, 0x06, 0x02, 0x01, 0x05, 0x02, 0x05, 0x07] =
      .ok (5, 7) ∧
    parseDerSignature [0x30, 0x06, 0x02, 0x01, 0x05, 0x02, 0x05, 0x07] ≠
      .error .formatError := by
  have h : parseDerSignature [0x30, 0x06, 0x02, 0x01, 0x05, 0x02, 0x05, 0x07] =
      .ok (5, 7) := rfl
  exact ⟨h, by simp [h]⟩

/-- C2 (amended): empty input, input whose first byte is not the sequence
tag 0x30, and input whose r or s position does not hold the integer tag
0x02 each fail with a format error, and an input with a truncated r field
also fails with a format error (the s tag check then reads past the end);
but an input with a truncated s field is not rejected: the parser silently
uses the bytes that remain, as in the concrete run in the last clause. -/
theorem c2_der_rejects_amended :
    parseDerSignature [] = .error .formatError ∧
    (∀ b : Nat, ∀ rest : List Nat, b ≠ 0x30 →
      parseDerSignature (b :: rest) = .error .formatError) ∧
    (∀ der : List Nat, jsIdx der 0 = 0x30 → jsIdx der 2 ≠ 0x02 →
      parseDerSignature der = .error .formatError) ∧
    (∀ der : List Nat, jsIdx der 0 = 0x30 → jsIdx der 2 = 0x02 →
      jsIdx der (4 + jsIdx der 3) ≠ 0x02 →
      parseDerSignature der = .error .formatError) ∧
    (∀ der : List Nat, jsIdx der 0 = 0x30 → jsIdx der 2 = 0x02 →
      der.length < 4 + jsIdx der 3 →
      parseDerSignature der = .error .formatError) ∧
    parseDerSignature [0x30, 0x06, 0x02, 0x01, 0x05, 0x02, 0x09, 0x09] =
      .ok (5, 9) := by
  refine ⟨rfl, ?_, ?_, ?_, ?_, rfl⟩
  · intro b rest hb
    have h0 : jsIdx (b :: rest) 0 = b := rfl
    unfold parseDerSignature
    rw [h0, if_pos hb]
  · intro der h0 h2
    unfold parseDerSignature
    rw [if_neg (by simp [h0]), if_pos h2]
  · intro der h0 h2 htag
    unfold parseDerSignature
    rw [if_neg (by simp [h0]), if_neg (by simp [h2])]
    dsimp only
    rw [if_pos htag]
  · intro der h0 h2 hlen
    have htag : jsIdx der (4 + jsIdx der 3) = 0 := by
      have hl := hlen
      unfold jsIdx at hl ⊢
      exact List.getD_eq_default _ _ (by omega)
    unfold parseDerSignature
    rw [if_neg (by simp [h0]), if_neg (by simp [h2])]
    dsimp only
    rw [if_pos (by simp [htag])]

/-- Witness for C2: the amended rejection clauses evaluated on concrete
inputs — a wrong outer tag, a wrong r tag, a wrong s tag and a truncated r
field. -/
theorem c2_der_rejects_witness :
    parseDerSignature [0x31, 0x06] = .error .formatError ∧
    parseDerSignature [0x30, 0x06, 0x03, 0x01, 0x05] = .error .formatError ∧
    parseDerSignature [0x30, 0x06, 0x02, 0x01, 0x05, 0x03, 0x01, 0x07] =
      .error .formatError ∧
    parseDerSignature [0x30, 0x06, 0x02, 0x20, 0x05] = .error .formatError :=
  ⟨c2_der_rejects_amended.2.1 0x31 [0x06] (by decide),
   c2_der_rejects_amended.2.2.1 [0x30, 0x06, 0x03, 0x01, 0x05] rfl (by decide),
   c2_der_rejects_amended.2.2.2.1 [0x30, 0x06, 0x02, 0x01, 0x05, 0x03, 0x01, 0x07]
     rfl rfl (by decide),
   c2_der_rejects_amended.2.2.2.2.1 [0x30, 0x06, 0x02, 0x20, 0x05] rfl rfl
     (by decide)⟩

/-- Helper: writing the 6 validUntil bytes and a 32-byte hash into the
zeroed 38-byte buffer yields exactly the concatenation of the two. -/
theorem setBytes_challenge (hash : List Nat) (h : hash.length = 32) :
    setBytes (setBytes (List.replicate 38 0) 0 (beBytes 6 0)) 6 hash =
      beBytes 6 0 ++ hash := by
  have hinner :
      setBytes (List.replicate 38 0) 0 (beBytes 6 0) = List.replicate 38 0 := by
    decide
  rw [hinner]
  unfold setBytes
  rw [h]
  have hrep : (List.replicate 38 (0 : Nat)).take 6 = List.replicate 6 0 := by
    decide
  have hdrop : (List.replicate 38 (0 : Nat)).drop (6 + 32) = [] := by decide
  rw [hrep, hdrop, List.append_nil]
  rfl

/-- C5: for every operation signed with validUntil 0, the challenge handed
to the passkey capability is exactly the 6 big-endian validUntil bytes
followed by the 32-byte operation hash, 38 bytes in all; and the final
signature is exactly that 6-byte prefix followed by the ABI encoding of
(keySlot, authenticatorData, clientDataJSON, r, s) for the parsed and
normalized passkey signature. -/
theorem c5_signUserOp_layout (keccak : List Nat → List Nat)
    (hk : ∀ bs : List Nat, (keccak bs).length = 32)
    (authenticator : List Nat → List Nat × List Nat × List Nat)
    (op : UserOperation) (keySlot : Nat) :
    (beBytes 6 0 ++ getUserOpHash keccak op).length = 38 ∧
    signUserOp keccak authenticator op keySlot =
      (parseDerSignature
          (authenticator (beBytes 6 0 ++ getUserOpHash keccak op)).2.2).map
        (fun rs => beBytes 6 0 ++
          encodeSigStruct keySlot
            (authenticator (beBytes 6 0 ++ getUserOpHash keccak op)).1
            (authenticator (beBytes 6 0 ++ getUserOpHash keccak op)).2.1
            rs.1 rs.2) := by
  have hlen : (getUserOpHash keccak op).length = 32 := hk _
  refine ⟨by simp [hlen]; decide, ?_⟩
  unfold signUserOp
  dsimp only
  rw [if_pos (by simp [hlen]), setBytes_challenge _ hlen]

/-- Witness for C5: the layout theorem instantiated with a constant hash
function, a constant authenticator and a concrete operation. -/
theorem c5_signUserOp_witness :
    (beBytes 6 0 ++
        getUserOpHash (fun _ => List.replicate 32 0) sampleOp).length = 38 ∧
    signUserOp (fun _ => List.replicate 32 0)
        (fun _ => ([], [], [0x30, 0x06, 0x02, 0x01, 0x05, 0x02, 0x01, 0x06]))
        sampleOp 0 =
      (parseDerSignature [0x30, 0x06, 0x02, 0x01, 0x05, 0x02, 0x01, 0x06]).map
        (fun rs => beBytes 6 0 ++ encodeSigStruct 0 [] [] rs.1 rs.2) :=
  c5_signUserOp_layout (fun _ => List.replicate 32 0) (fun _ => rfl)
    (fun _ => ([], [], [0x30, 0x06, 0x02, 0x01, 0x05, 0x02, 0x01, 0x06]))
    sampleOp 0

/-- Helper: decoding the hex digit character of a value below 16 gives the
value back. -/
theorem hexDigit_roundtrip (d : Nat) (h : d < 16) :
    (if hexDigit d < 58 then hexDigit d - 48 else hexDigit d - 87) = d := by
  by_cases h10 : d < 10
  · simp only [hexDigit, if_pos h10]
    rw [if_pos (by omega)]
    omega
  · simp only [hexDigit, if_neg h10]
    rw [if_neg (by omega)]
    omega

/-- Helper: the minimal hex-digit serialization decodes back to its
input, so the produced string really represents the number. -/
theorem hexDecode_natHexDigits (n : Nat) : hexDecode (natHexDigits n) = n := by
  induction n using Nat.strong_induction_on with
  | _ n ih =>
    rw [natHexDigits]
    split
    · show hexDecode [hexDigit n] = n
      show 16 * 0 + _ = n
      simpa using hexDigit_roundtrip n (by omega)
    · have hdiv := ih (n / 16) (Nat.div_lt_self (by omega) (by omega))
      calc hexDecode (natHexDigits (n / 16) ++ [hexDigit (n % 16)]) =
          16 * hexDecode (natHexDigits (n / 16)) +
            (if hexDigit (n % 16) < 58 then hexDigit (n % 16) - 48
             else hexDigit (n % 16) - 87) := by
            unfold hexDecode
            rw [List.foldl_append]
            rfl
        _ = 16 * (n / 16) + n % 16 := by
            rw [hdiv, hexDigit_roundtrip _ (Nat.mod_lt _ (by omega))]
        _ = n := by omega

/-- C9: the submission path posts the converted request object together
with the fixed entry point address and returns the relay hash unchanged;
every numeric field of the request is the 0x-prefixed minimal hex string
of the operation field (ASCII 48 and 120 are the characters 0 and x, and
the digits decode back to the number); with no factory the request has
neither factory key, and with no paymaster it has none of the four
paymaster keys. -/
theorem c9_submitUserOp_serialization (send : UserOperationV07 → Nat → Nat)
    (op : UserOperation) :
    submitUserOp send op = send (toBundlerUserOp op) ENTRY_POINT_ADDRESS ∧
    (toBundlerUserOp op).nonce = 48 :: 120 :: natHexDigits op.nonce ∧
    (toBundlerUserOp op).callGasLimit = toHexString op.callGasLimit ∧
    (toBundlerUserOp op).verificationGasLimit =
      toHexString op.verificationGasLimit ∧
    (toBundlerUserOp op).preVerificationGas =
      toHexString op.preVerificationGas ∧
    (toBundlerUserOp op).maxFeePerGas = toHexString op.maxFeePerGas ∧
    (toBundlerUserOp op).maxPriorityFeePerGas =
      toHexString op.maxPriorityFeePerGas ∧
    (∀ n : Nat, hexDecode (natHexDigits n) = n) ∧
    (op.factory = none →
      (toBundlerUserOp op).factory = none ∧
      (toBundlerUserOp op).factoryData = none) ∧
    (op.paymaster = none →
      (toBundlerUserOp op).paymaster = none ∧
      (toBundlerUserOp op).paymasterVerificationGasLimit = none ∧
      (toBundlerUserOp op).paymasterPostOpGasLimit = none ∧
      (toBundlerUserOp op).paymasterData = none) := by
  refine ⟨rfl, rfl, rfl, rfl, rfl, rfl, rfl, hexDecode_natHexDigits, ?_, ?_⟩
  · intro hf
    refine ⟨hf, ?_⟩
    simp only [toBundlerUserOp]
    rw [hf]
  · intro hp
    refine ⟨hp, ?_, ?_, ?_⟩ <;> simp only [toBundlerUserOp] <;> rw [hp]

/-- Witness for C9: the optional-field clauses evaluated on a concrete
operation without factory and paymaster. -/
theorem c9_submitUserOp_witness :
    (toBundlerUserOp sampleOp9).factory = none ∧
    (toBundlerUserOp sampleOp9).factoryData = none ∧
    (toBundlerUserOp sampleOp9).paymaster = none ∧
    (toBundlerUserOp sampleOp9).paymasterVerificationGasLimit = none ∧
    (toBundlerUserOp sampleOp9).paymasterPostOpGasLimit = none ∧
    (toBundlerUserOp sampleOp9).paymasterData = none ∧
    hexDecode (natHexDigits 321) = 321 := by
  have h := c9_submitUserOp_serialization (fun _ _ => 0) sampleOp9
  obtain ⟨hf, hfd⟩ := h.2.2.2.2.2.2.2.2.1 rfl
  obtain ⟨hpm, h1, h2, h3⟩ := h.2.2.2.2.2.2.2.2.2 rfl
  exact ⟨hf, hfd, hpm, h1, h2, h3, h.2.2.2.2.2.2.2.1 321⟩

/-- Helper: when every poll is absent, the loop times out and the polls
happen exactly at the times `pollTimes` lists. -/
theorem waitIter_absent (g : Nat → Option Nat) (hg : ∀ t, g t = none)
    (timeout : Nat) :
    ∀ fuel elapsed,
      waitIter g timeout elapsed fuel = (none, pollTimes timeout elapsed fuel) := by
  intro fuel
  induction fuel with
  | zero => intro e; rfl
  | succ f ih =>
    intro e
    unfold waitIter pollTimes
    split
    · rw [hg e]
      simp [ih]
    · rfl

/-- Helper: when the first `k` polls are absent and poll `k` finds a
receipt within the timeout, the loop returns that receipt after exactly
the polls at offsets `0, 2000, ..., 2000 * k`. -/
theorem waitIter_found (g : Nat → Option Nat) (timeout r : Nat) :
    ∀ k fuel elapsed, (∀ j, j < k → g (elapsed + 2000 * j) = none) →
      g (elapsed + 2000 * k) = some r → elapsed + 2000 * k < timeout →
      k < fuel →
      waitIter g timeout elapsed fuel =
        (some r, (List.range (k + 1)).map fun j => elapsed + 2000 * j) := by
  intro k
  induction k with
  | zero =>
    intro fuel elapsed _ hfound hlt hfuel
    match fuel with
    | f + 1 =>
      unfold waitIter
      rw [if_pos (by omega)]
      have h0 : g elapsed = some r := by simpa using hfound
      rw [h0]
      have h1 : List.range 1 = [0] := rfl
      simp [h1]
  | succ k ih =>
    intro fuel elapsed hnone hfound hlt hfuel
    match fuel with
    | f + 1 =>
      unfold waitIter
      rw [if_pos (by omega)]
      have h0 : g elapsed = none := by simpa using hnone 0 (by omega)
      rw [h0]
      have hrest := ih f (elapsed + 2000)
        (fun j hj => by
          have := hnone (j + 1) (by omega)
          have harith : elapsed + 2000 * (j + 1) = elapsed + 2000 + 2000 * j := by
            ring
          rwa [harith] at this)
        (by
          have harith : elapsed + 2000 * (k + 1) = elapsed + 2000 + 2000 * k := by
            ring
          rwa [harith] at hfound)
        (by omega) (by omega)
      rw [hrest]
      have hlist : (List.range (k + 1 + 1)).map (fun j => elapsed + 2000 * j) =
          elapsed ::
            (List.range (k + 1)).map (fun j => elapsed + 2000 + 2000 * j) := by
        rw [List.range_succ_eq_map, List.map_cons, List.map_map]
        refine congrArg₂ List.cons (by omega)
          (List.map_congr_left fun j _ => ?_)
        simp only [Function.comp, Nat.succ_eq_add_one]
        ring
      rw [hlist]

/-- C7: when every poll is absent the loop with the default 60000 ms
timeout raises the timeout error after polling exactly at
0, 2000, ..., 58000 (constant 2000 ms interval, no backoff, no jitter),
and with a 6000 ms timeout it polls exactly three times, at 0, 2000 and
4000 (within the claimed two to three attempts); and as soon as a poll
finds a receipt, that receipt is returned at once and no further polls are
made. -/
theorem c7_waitForReceipt_polling :
    (∀ g : Nat → Option Nat, (∀ t, g t = none) →
      waitForUserOperation g =
        (none, (List.range 30).map fun k => 2000 * k) ∧
      waitTrace g 6000 = (none, [0, 2000, 4000])) ∧
    (∀ g : Nat → Option Nat, ∀ timeout k r : Nat,
      (∀ j, j < k → g (2000 * j) = none) → g (2000 * k) = some r →
      2000 * k < timeout →
      waitTrace g timeout =
        (some r, (List.range (k + 1)).map fun j => 2000 * j)) := by
  constructor
  · intro g hg
    constructor
    · show waitIter g 60000 0 60001 = _
      rw [waitIter_absent g hg]
      decide
    · show waitIter g 6000 0 6001 = _
      rw [waitIter_absent g hg]
      decide
  · intro g timeout k r hnone hfound hlt
    have h := waitIter_found g timeout r k (timeout + 1) 0
      (fun j hj => by simpa using hnone j hj) (by simpa using hfound)
      (by omega) (by omega)
    simpa using h

/-- Witness for C7: a relay that never answers times out at 6000 ms after
polls at 0, 2000 and 4000; a relay that answers on the third poll gets its
receipt returned right there. -/
theorem c7_waitForReceipt_witness :
    waitTrace (fun _ => (none : Option Nat)) 6000 = (none, [0, 2000, 4000]) ∧
    waitTrace (fun t => if t = 4000 then some 5 else none) 6000 =
      (some 5, [0, 2000, 4000]) := by
  constructor
  · exact (c7_waitForReceipt_polling.1 (fun _ => none) (fun _ => rfl)).2
  · have h := c7_waitForReceipt_polling.2
      (fun t => if t = 4000 then some 5 else none) 6000 2 5
      (fun j hj => by
        match j, hj with
        | 0, _ => rfl
        | 1, _ => rfl)
      rfl (by omega)
    simpa using h

/-- C6: divergence between the claimed and actual handling of the 0x58
byte-string tag in the COSE key map. The claim (like the source comments)
says a value tagged 0x58 is read through its 1-byte length prefix. In the
code the branch testing `(tag and 0xe0) = 0x40` comes first and already
matches 0x58, so 0x58 is treated as a byte string whose length is the low
five bits of the tag, 0x18 = 24 — the dedicated 0x58 branch is
unreachable. On the standard encoding of a 32-byte coordinate
(0x58, 0x20, then 32 bytes) the parser therefore swallows the length
prefix byte into the coordinate and misreads the rest of the map: on
`c6Attestation` the parse succeeds but returns an x made of the length
byte 0x20 and the first 23 coordinate bytes (zero padded) instead of the
stored 32 bytes, and a misread y. -/
theorem c6_cose_0x58_divergence :
    parseCoseKey c6CoseKey = .ok (0x20 :: List.replicate 23 0xAA, [0xBB]) ∧
    0x20 :: List.replicate 23 0xAA ≠ c6X ∧
    parseAttestationObject c6Attestation =
      .ok (derHeaderBytes ++ 0x04 ::
             (0x20 :: (List.replicate 23 0xAA ++ List.replicate 8 0 ++
               0xBB :: List.replicate 31 0)),
           0x20 :: (List.replicate 23 0xAA ++ List.replicate 8 0),
           0xBB :: List.replicate 31 0) ∧
    0x20 :: (List.replicate 23 0xAA ++ List.replicate 8 0) ≠ c6X ∧
    0xBB :: List.replicate 31 0 ≠ List.replicate 32 0xCC := by
  refine ⟨?_, by decide, ?_, by decide, by decide⟩
  · rfl
  · rfl

end Sendme
